import Mathlib

/-!
Verification of the QCElemental basis-set / result-protocol data model.

The development shallowly embeds the validated-record constructors of the
repository: electron-shell and ECP-potential shape validation, basis-set
assembly with referential checking of the atom map, the basis-function
count `nbf`, the wavefunction protocol projector, the trajectory protocol
projector, and the `FailedOperation` / `ComputeError` records of
`qcelemental/models/common_models.py`.  Construction of a record is
modelled as an `Except String` computation returning either the validated
record (or `Unit` for pure checks) or the human-readable validation
message.  Numeric coefficient data is carried as exact rationals; no
claim depends on the numeric values, only on the shapes of the data.
-/

namespace QCElemental

/-- Substring test on lists of characters: `pat` occurs contiguously. -/
def listContainsSubstr (pat : List Char) : List Char → Bool
  | [] => pat.isEmpty
  | c :: rest => pat.isPrefixOf (c :: rest) || listContainsSubstr pat rest

/-- Substring test on strings: does `s` contain `pat` contiguously? -/
def strContainsSubstr (s pat : String) : Bool :=
  listContainsSubstr pat.toList s.toList

theorem listContainsSubstr_append (pat l₂ : List Char)
    (h : listContainsSubstr pat l₂ = true) :
    ∀ l₁ : List Char, listContainsSubstr pat (l₁ ++ l₂) = true
  | [] => h
  | c :: rest => by
    have ih := listContainsSubstr_append pat l₂ h rest
    simp [listContainsSubstr, ih]

theorem strContainsSubstr_append (a b pat : String)
    (h : strContainsSubstr b pat = true) :
    strContainsSubstr (a ++ b) pat = true := by
  unfold strContainsSubstr at h ⊢
  have hl : (a ++ b).toList = a.toList ++ b.toList := by
    cases a
    cases b
    rfl
  rw [hl]
  exact listContainsSubstr_append pat.toList b.toList h a.toList

/-- Harmonic type of an electron shell (`harmonic_type` in `basis.py`). -/
inductive HarmonicType
  | spherical
  | cartesian
deriving DecidableEq

/-- Modelled from the spec: `ElectronShell` of the basis module, which is
absent from `src/` (only its tests are present).  One contracted or fused
electron shell: harmonic type, angular momenta, exponents and contraction
coefficient rows. -/
structure ElectronShell where
  harmonic_type : HarmonicType
  angular_momentum : List Nat
  exponents : List Rat
  coefficients : List (List Rat)
deriving DecidableEq

/-- Type of an effective core potential term (`ecp_type`). -/
inductive ECPType
  | scalar
  | spinorbit
deriving DecidableEq

/-- Modelled from the spec: `ECPPotential` of the basis module, which is
absent from `src/`.  One effective-core-potential term. -/
structure ECPPotential where
  ecp_type : ECPType
  angular_momentum : List Nat
  r_exponents : List Nat
  gaussian_exponents : List Rat
  coefficients : List (List Rat)
deriving DecidableEq

def shellCoefficientLengthMsg : String :=
  "The length of coefficients does not match the length of exponents."

def fusedShellMsg : String :=
  "The length of coefficients does not match the length of angular momenta for a fused shell."

def ecpGaussianLengthMsg : String :=
  "The length of gaussian exponents does not match the length of r exponents."

def ecpRowCountMsg : String :=
  "The length of coefficients does not match the length of angular momenta."

def ecpCoefficientLengthMsg : String :=
  "The length of coefficients does not match the length of r exponents."

/-- Modelled from the spec: the `ElectronShell` shape validators of the
basis module, which is absent from `src/`.  Every coefficient row must be
as long as the exponent list; a fused shell (more than one angular
momentum) must carry exactly one contraction row per momentum.  The
repository's own tests (`test_basis_shell_centers`) accept shells with a
single angular momentum and several general-contraction rows, so the row
count is constrained only in the fused case. -/
def validateElectronShell (s : ElectronShell) : Except String Unit :=
  if s.coefficients.any fun row => row.length != s.exponents.length then
    Except.error shellCoefficientLengthMsg
  else if 1 < s.angular_momentum.length ∧
      s.coefficients.length ≠ s.angular_momentum.length then
    Except.error fusedShellMsg
  else
    Except.ok ()

/-- Modelled from the spec: the `ECPPotential` shape validators of the
basis module, which is absent from `src/`.  `gaussian_exponents` must be
as long as `r_exponents`, the coefficient row count must equal the number
of angular momenta, and every row must be as long as `r_exponents`. -/
def validateECPPotential (e : ECPPotential) : Except String Unit :=
  if e.gaussian_exponents.length ≠ e.r_exponents.length then
    Except.error ecpGaussianLengthMsg
  else if e.coefficients.length ≠ e.angular_momentum.length then
    Except.error ecpRowCountMsg
  else if e.coefficients.any fun row => row.length != e.r_exponents.length then
    Except.error ecpCoefficientLengthMsg
  else
    Except.ok ()

/-- Modelled from the spec: `ElectronShell.is_contracted` of the basis
module, which is absent from `src/`.  The spec's prose (true iff any
coefficient row has more than one entry) contradicts the assertions of
`test_basis_set_build`, which require `False` for a single three-entry
row and for a fused two-row shell but `True` for a two-row shell with a
single angular momentum; the modelled definition follows the tests: the
shell is contracted when its single angular momentum carries several
general-contraction rows. -/
def ElectronShell.is_contracted (s : ElectronShell) : Bool :=
  s.coefficients.length != 1 && s.angular_momentum.length == 1

/-- Basis-function count contributed by one angular momentum `l`:
spherical harmonics give `2l+1` functions, cartesian give
`(l+1)(l+2)/2`. -/
def harmonicComponents : HarmonicType → Nat → Nat
  | HarmonicType.spherical, l => 2 * l + 1
  | HarmonicType.cartesian, l => (l + 1) * (l + 2) / 2

/-- Modelled from the spec: `ElectronShell.nfunctions` of the basis
module, absent from `src/` — the number of basis functions of one shell,
summed over its angular momenta. -/
def ElectronShell.nfunctions (s : ElectronShell) : Nat :=
  (s.angular_momentum.map (harmonicComponents s.harmonic_type)).sum

/-- Modelled from the spec: `BasisCenter` of the basis module, absent
from `src/` — a named atomic basis: ordered shells plus optional ECP
data. -/
structure BasisCenter where
  electron_shells : List ElectronShell
  ecp_electrons : Option Nat
  ecp_potentials : List ECPPotential
deriving DecidableEq

/-- Total basis-function count of one center. -/
def BasisCenter.nfunctions (c : BasisCenter) : Nat :=
  (c.electron_shells.map ElectronShell.nfunctions).sum

/-- Run a validator over every element, stopping at the first error. -/
def validateAll {α : Type} (f : α → Except String Unit) : List α → Except String Unit
  | [] => Except.ok ()
  | x :: rest =>
    match f x with
    | Except.error msg => Except.error msg
    | Except.ok _ => validateAll f rest

/-- All shells and ECP terms of a center must validate. -/
def validateBasisCenter (c : BasisCenter) : Except String Unit :=
  match validateAll validateElectronShell c.electron_shells with
  | Except.error msg => Except.error msg
  | Except.ok _ => validateAll validateECPPotential c.ecp_potentials

/-- Modelled from the spec: `BasisSet` of the basis module, absent from
`src/` — a named collection of centers plus the per-atom map into it. -/
structure BasisSet where
  name : String
  center_data : List (String × BasisCenter)
  atom_map : List String
deriving DecidableEq

/-- Resolve a center name in the `center_data` mapping. -/
def lookupCenter (cd : List (String × BasisCenter)) (n : String) : Option BasisCenter :=
  (cd.find? fun p => p.1 == n).map Prod.snd

def missingCenterMsg (n : String) : String :=
  "Could not find " ++ n ++ " in the basis center data: no such center."

/-- Referential check: every atom-map entry must resolve in `center_data`. -/
def checkAtomMap (cd : List (String × BasisCenter)) : List String → Except String Unit
  | [] => Except.ok ()
  | n :: rest =>
    match lookupCenter cd n with
    | Option.none => Except.error (missingCenterMsg n)
    | some _ => checkAtomMap cd rest

/-- Modelled from the spec: the `BasisSet` constructor of the basis
module, absent from `src/`.  Field-level validation of the centers runs
first (mirroring the field order of the record), then the referential
atom-map check; only then is the validated record returned. -/
def mkBasisSet (name : String) (cd : List (String × BasisCenter)) (am : List String) :
    Except String BasisSet :=
  match validateAll (fun p => validateBasisCenter p.2) cd with
  | Except.error msg => Except.error msg
  | Except.ok _ =>
    match checkAtomMap cd am with
    | Except.error msg => Except.error msg
    | Except.ok _ => Except.ok ⟨name, cd, am⟩

/-- Modelled from the spec: `BasisSet.nbf`, absent from `src/` — the sum
over atom-map entries of the resolved center's function count. -/
def BasisSet.nbf (bs : BasisSet) : Nat :=
  (bs.atom_map.map fun n =>
    match lookupCenter bs.center_data n with
    | some c => c.nfunctions
    | Option.none => 0).sum

/-! Fixture data of `test_model_results.py` (`center_data`). -/

def sto3gHShell : ElectronShell :=
  ⟨HarmonicType.spherical, [0], [3.42525091, 0.62391373, 0.16885540],
    [[0.15432897, 0.53532814, 0.44463454]]⟩

def bsSto3gH : BasisCenter := ⟨[sto3gHShell], Option.none, []⟩

def oShell1 : ElectronShell :=
  ⟨HarmonicType.spherical, [0], [130.70939, 23.808861, 6.4436089],
    [[0.15432899, 0.53532814, 0.44463454]]⟩

def oShell2 : ElectronShell :=
  ⟨HarmonicType.cartesian, [0, 1], [5.0331513, 1.1695961, 0.3803890],
    [[-0.09996723, 0.39951283, 0.70011547], [0.15591629, 0.60768379, 0.39195739]]⟩

def oShell3 : ElectronShell :=
  ⟨HarmonicType.cartesian, [0], [5.0331513, 1.1695961, 0.3803890],
    [[-5.09996723, 0.39951283, 0.70011547], [0.15591629, 0.60768379, 0.39195739]]⟩

def bsSto3gO : BasisCenter := ⟨[oShell1, oShell2, oShell3], Option.none, []⟩

def zrShell1 : ElectronShell :=
  ⟨HarmonicType.spherical, [0], [11.000000000, 9.5000000000, 3.6383667759, 0.76822026698],
    [[-0.19075595259, 0.33895588754, 0, 0], [0, 0, 1.0000000000, 0]]⟩

def zrShell2 : ElectronShell :=
  ⟨HarmonicType.spherical, [2], [4.5567957795, 1.2904939799, 0.51646987229],
    [[-0.96190569023e-9, 0.20569990155, 0.41831381851], [0, 0, 0], [0, 0, 0]]⟩

def zrShell3 : ElectronShell :=
  ⟨HarmonicType.spherical, [3], [0.3926100], [[1.0000000]]⟩

def zrEcp1 : ECPPotential :=
  ⟨ECPType.scalar, [0], [2, 2, 2, 2], [7.4880494, 3.7440249, 6.5842120, 3.2921060],
    [[135.15384419, 15.55244130, 19.12219811, 2.43637549]]⟩

def zrEcp2 : ECPPotential :=
  ⟨ECPType.spinorbit, [1], [2, 2, 2, 2], [6.4453779, 3.2226886, 6.5842120, 3.2921060],
    [[87.78499169, 11.56406599, 19.12219811, 2.43637549]]⟩

def bsDef2tzvpZr : BasisCenter := ⟨[zrShell1, zrShell2, zrShell3], some 28, [zrEcp1, zrEcp2]⟩

def centerData : List (String × BasisCenter) :=
  [("bs_sto3g_h", bsSto3gH), ("bs_sto3g_o", bsSto3gO), ("bs_def2tzvp_zr", bsDef2tzvpZr)]

/-- The hydrogen fixture shell with its coefficient row replaced by the
two-entry row of `test_basis_electron_center_raises`. -/
def badCoefShell : ElectronShell :=
  ⟨HarmonicType.spherical, [0], [3.42525091, 0.62391373, 0.16885540], [[5, 3]]⟩

/-- The hydrogen fixture shell with `angular_momentum` replaced by `[0, 1]`
but still a single contraction row, as in
`test_basis_electron_center_raises`. -/
def badFusedShell : ElectronShell :=
  ⟨HarmonicType.spherical, [0, 1], [3.42525091, 0.62391373, 0.16885540],
    [[0.15432897, 0.53532814, 0.44463454]]⟩

/-- The zirconium scalar ECP term with its coefficients replaced by the
two-entry row of `test_basis_ecp_center_raises`. -/
def badEcpCoef : ECPPotential :=
  ⟨ECPType.scalar, [0], [2, 2, 2, 2], [7.4880494, 3.7440249, 6.5842120, 3.2921060], [[5, 3]]⟩

/-- The zirconium scalar ECP term with `gaussian_exponents` replaced by a
two-entry list, as in `test_basis_ecp_center_raises`. -/
def badEcpGaussian : ECPPotential :=
  ⟨ECPType.scalar, [0], [2, 2, 2, 2], [5, 3],
    [[135.15384419, 15.55244130, 19.12219811, 2.43637549]]⟩

/-! Wavefunction protocol projection (spec section 4.3). -/

/-- Modelled from the spec: the `WavefunctionProtocol` enum of the
results module, which is absent from `src/`. -/
inductive WavefunctionProtocol
  | none
  | all
  | orbitals_and_eigenvalues
  | return_results
deriving DecidableEq

/-- A named wavefunction field is alpha-channel when its name carries the
`_a` spin suffix. -/
def isAlphaField (n : String) : Bool :=
  "_a".toList.isSuffixOf n.toList

/-- The underlying storage field of a named wavefunction field. -/
def scfFieldName (n : String) : String :=
  "scf_" ++ n

/-- Modelled from the spec: the retained-named-field policy table of the
wavefunction projector (results module, absent from `src/`).  `provided`
lists the named fields present in the raw payload; `pointed` stands for
the fields reached from the `return_result` pointer in the
`return_results` protocol. -/
def retainedFields (protocol : Option WavefunctionProtocol) (restricted : Bool)
    (provided : List String) (pointed : List String) : List String :=
  match protocol with
  | Option.none => []
  | some WavefunctionProtocol.none => []
  | some WavefunctionProtocol.all =>
    if restricted then provided.filter isAlphaField
    else (["orbitals_a", "orbitals_b"] ++ provided).dedup
  | some WavefunctionProtocol.orbitals_and_eigenvalues =>
    if restricted then ["orbitals_a", "eigenvalues_a"].filter fun n => provided.contains n
    else ["orbitals_a", "orbitals_b"].filter fun n => provided.contains n
  | some WavefunctionProtocol.return_results => pointed

/-- Eigenvalue-type fields are stored as vectors rather than matrices. -/
def isEigenvalueField (n : String) : Bool :=
  strContainsSubstr n "eigen"

/-- Flattened element count a stored array must have: `nbf` for
eigenvalue-type vectors, `nbf * nbf` for matrices. -/
def expectedSize (nbf : Nat) (n : String) : Nat :=
  if isEigenvalueField n then nbf else nbf * nbf

/-- Look up the flattened element count of a storage field. -/
def lookupSize (storage : List (String × Nat)) (n : String) : Option Nat :=
  (storage.find? fun p => p.1 == n).map Prod.snd

def missingFieldMsg (n : String) : String :=
  n ++ " does not exist in the wavefunction."

def shapeCastMsg (n : String) : String :=
  n ++ " is not castable to shape of the basis functions."

/-- Modelled from the spec: the per-field storage checks of the
wavefunction projector (results module, absent from `src/`).  Every
retained named field must have its `scf_`-prefixed storage counterpart
present, and that array's flattened element count must be castable to the
expected shape. -/
def checkFields (nbf : Nat) (storage : List (String × Nat)) : List String → Except String Unit
  | [] => Except.ok ()
  | n :: rest =>
    match lookupSize storage (scfFieldName n) with
    | Option.none => Except.error (missingFieldMsg (scfFieldName n))
    | some sz =>
      if sz = expectedSize nbf n then checkFields nbf storage rest
      else Except.error (shapeCastMsg (scfFieldName n))

/-- Modelled from the spec: the wavefunction projector (results module,
absent from `src/`).  Produces `Option.none` when the protocol retains
nothing, otherwise the exact trimmed field set: the retained named
fields, their storage counterparts, and `basis` and `restricted`. -/
def buildWavefunction (protocol : Option WavefunctionProtocol) (restricted : Bool)
    (nbf : Nat) (provided : List String) (storage : List (String × Nat))
    (pointed : List String) : Except String (Option (List String)) :=
  if (retainedFields protocol restricted provided pointed).isEmpty then
    Except.ok Option.none
  else
    match checkFields nbf storage (retainedFields protocol restricted provided pointed) with
    | Except.error msg => Except.error msg
    | Except.ok _ =>
      Except.ok (some (retainedFields protocol restricted provided pointed ++
        (retainedFields protocol restricted provided pointed).map scfFieldName ++
        ["basis", "restricted"]))

/-- Raw wavefunction payload of a `Result` input, reduced to what the
validators inspect: the `restricted` flag, the basis size, the named
pointer fields present, the storage fields with their flattened sizes,
and the fields reached from the return-result pointer. -/
structure WavefunctionPayloadData where
  restricted : Bool
  nbf : Nat
  provided : List String
  storage : List (String × Nat)
  pointed : List String
deriving DecidableEq

/-- Modelled from the spec: the wavefunction step of `Result`
construction (results module, absent from `src/`): an absent payload or a
protocol retaining nothing yields a `None` wavefunction field. -/
def resultWavefunction (protocol : Option WavefunctionProtocol)
    (payload : Option WavefunctionPayloadData) : Except String (Option (List String)) :=
  match payload with
  | Option.none => Except.ok Option.none
  | some p => buildWavefunction protocol p.restricted p.nbf p.provided p.storage p.pointed

/-! Trajectory protocol projection (spec section 4.4). -/

/-- Modelled from the spec: the `TrajectoryProtocol` enum of the results
module, absent from `src/`. -/
inductive TrajectoryProtocol
  | all
  | initial_and_final
  | final
  | none
deriving DecidableEq

/-- Modelled from the spec: the trajectory projector (results module,
absent from `src/`).  Selects a subsequence of the per-step results,
preserving order: everything for an absent protocol or `all`, the first
and last step for `initial_and_final`, the last step for `final`, nothing
for `none`; a one-step trajectory is returned whole by both
`initial_and_final` and `final`. -/
def projectTrajectory {α : Type} (p : Option TrajectoryProtocol) (traj : List α) : List α :=
  match p with
  | Option.none => traj
  | some TrajectoryProtocol.all => traj
  | some TrajectoryProtocol.initial_and_final =>
    if traj.length ≤ 1 then traj else traj.take 1 ++ traj.drop (traj.length - 1)
  | some TrajectoryProtocol.final => traj.drop (traj.length - 1)
  | some TrajectoryProtocol.none => []

/-- An `Optimization` record reduced to its trajectory; the element type
stands for the per-step `Result` records, which the projection must not
alter. -/
structure Optimization (α : Type) where
  trajectory : List α
deriving DecidableEq

/-- Modelled from the spec: `Optimization` construction applies the
trajectory protocol to the raw per-step result list. -/
def mkOptimization {α : Type} (p : Option TrajectoryProtocol) (traj : List α) :
    Optimization α :=
  ⟨projectTrajectory p traj⟩

/-! `ComputeError` and `FailedOperation` of
`qcelemental/models/common_models.py`. -/

/-- A complete description of the error (`ComputeError`): a short error
classifier and the associated text, plus optional extra data. -/
structure ComputeError where
  error_type : String
  error_message : String
  extras : Option (List (String × String))
deriving DecidableEq

/-- Raw input mapping for `ComputeError`: both string fields are
required, `extras` is optional. -/
structure ComputeErrorInput where
  error_type : Option String
  error_message : Option String
  extras : Option (List (String × String))
deriving DecidableEq

def mkComputeError (i : ComputeErrorInput) : Except String ComputeError :=
  match i.error_type, i.error_message with
  | some t, some m => Except.ok ⟨t, m, i.extras⟩
  | Option.none, _ => Except.error "error_type: field required"
  | _, Option.none => Except.error "error_message: field required"

/-- `FailedOperation`: id and input data are optional, `success` defaults
to `False` (the field is documented as always `False` but carries no
validator pinning it), and `error` is a required `ComputeError`. -/
structure FailedOperation where
  id : Option String
  input_data : Option String
  success : Bool
  error : ComputeError
  extras : Option (List (String × String))
deriving DecidableEq

/-- Raw input mapping for `FailedOperation`. -/
structure FailedOperationInput where
  id : Option String
  input_data : Option String
  success : Option Bool
  error : Option ComputeErrorInput
  extras : Option (List (String × String))
deriving DecidableEq

def mkFailedOperation (i : FailedOperationInput) : Except String FailedOperation :=
  match i.error with
  | Option.none => Except.error "error: field required"
  | some e =>
    match mkComputeError e with
    | Except.error m => Except.error m
    | Except.ok ce => Except.ok ⟨i.id, i.input_data, i.success.getD false, ce, i.extras⟩

/-! Helper lemmas. -/

theorem shapeCastMsg_contains (n : String) :
    strContainsSubstr (shapeCastMsg n) "castable to shape" = true :=
  strContainsSubstr_append n " is not castable to shape of the basis functions."
    "castable to shape" (by decide)

theorem missingFieldMsg_contains (n : String) :
    strContainsSubstr (missingFieldMsg n) "does not exist" = true :=
  strContainsSubstr_append n " does not exist in the wavefunction."
    "does not exist" (by decide)

theorem missingCenterMsg_contains (n : String) :
    strContainsSubstr (missingCenterMsg n) "no such center" = true :=
  strContainsSubstr_append ("Could not find " ++ n)
    " in the basis center data: no such center." "no such center" (by decide)

/-! Claim theorems. -/

/-- Claim C1: for the fixture centers, `nbf` is the sum over atom-map
entries of each resolved center's per-shell function counts (spherical
momentum `l` contributes `2l+1` functions, cartesian `(l+1)(l+2)/2`,
summed over the shell's momenta); in particular `nbf = 21` for the 4-atom
map `[O, H, H, Zr]` and the O+H+H subtotal for the 3-atom map.  The model
is a pure function of the validated record, so repeated calls agree by
construction. -/
theorem basis_set_nbf_counts :
    (mkBasisSet "custom_basis" centerData
        ["bs_sto3g_o", "bs_sto3g_h", "bs_sto3g_h", "bs_def2tzvp_zr"]).map BasisSet.nbf
      = Except.ok 21 ∧
    (mkBasisSet "custom_basis" centerData
        ["bs_sto3g_o", "bs_sto3g_h", "bs_sto3g_h"]).map BasisSet.nbf
      = Except.ok (bsSto3gO.nfunctions + bsSto3gH.nfunctions + bsSto3gH.nfunctions) ∧
    (∀ (am : List Nat) (ex : List Rat) (co : List (List Rat)),
      (ElectronShell.mk HarmonicType.spherical am ex co).nfunctions
        = (am.map fun l => 2 * l + 1).sum) ∧
    (∀ (am : List Nat) (ex : List Rat) (co : List (List Rat)),
      (ElectronShell.mk HarmonicType.cartesian am ex co).nfunctions
        = (am.map fun l => (l + 1) * (l + 2) / 2).sum) ∧
    (∀ bs : BasisSet, bs.nbf = (bs.atom_map.map fun n =>
        match lookupCenter bs.center_data n with
        | some c => (c.electron_shells.map ElectronShell.nfunctions).sum
        | Option.none => 0).sum) :=
  ⟨rfl, rfl, fun _ _ _ => rfl, fun _ _ _ => rfl, fun _ => rfl⟩

/-- Claim C4 counterexample: the zirconium fixture shell has one angular
momentum but two general-contraction coefficient rows, and it validates
successfully (as `test_basis_shell_centers` requires), so construction
does not demand that the row count equal the number of momenta. -/
theorem shell_row_count_claim_counterexample :
    validateElectronShell zrShell1 = Except.ok () ∧
    zrShell1.coefficients.length = 2 ∧
    zrShell1.angular_momentum.length = 1 :=
  ⟨rfl, rfl, rfl⟩

/-- Claim C4 (amended): shell and ECP construction enforce the row-length
rules — every coefficient row as long as the exponent list (for ECP, also
`gaussian_exponents` as long as `r_exponents`, and one row per angular
momentum) — and any violation fails with a message containing "does not
match the"; the electron-shell row count is only constrained for fused
shells. -/
theorem shell_ecp_length_validation :
    (∀ s : ElectronShell,
        (∃ row ∈ s.coefficients, row.length ≠ s.exponents.length) →
        validateElectronShell s = Except.error shellCoefficientLengthMsg) ∧
    (∀ s : ElectronShell, validateElectronShell s = Except.ok () →
        (∀ row ∈ s.coefficients, row.length = s.exponents.length) ∧
        (1 < s.angular_momentum.length →
          s.coefficients.length = s.angular_momentum.length)) ∧
    (∀ e : ECPPotential, e.gaussian_exponents.length ≠ e.r_exponents.length →
        validateECPPotential e = Except.error ecpGaussianLengthMsg) ∧
    (∀ e : ECPPotential, e.gaussian_exponents.length = e.r_exponents.length →
        (e.coefficients.length ≠ e.angular_momentum.length ∨
          ∃ row ∈ e.coefficients, row.length ≠ e.r_exponents.length) →
        ∃ m, validateECPPotential e = Except.error m ∧
          strContainsSubstr m "does not match the" = true) ∧
    (∀ e : ECPPotential, validateECPPotential e = Except.ok () →
        e.gaussian_exponents.length = e.r_exponents.length ∧
        e.coefficients.length = e.angular_momentum.length ∧
        ∀ row ∈ e.coefficients, row.length = e.r_exponents.length) ∧
    strContainsSubstr shellCoefficientLengthMsg "does not match the" = true ∧
    strContainsSubstr ecpGaussianLengthMsg "does not match the" = true := by
  refine ⟨?_, ?_, ?_, ?_, ?_, by decide, by decide⟩
  · intro s h
    have hc : (s.coefficients.any fun row => row.length != s.exponents.length) = true := by
      rcases h with ⟨row, hmem, hne⟩
      simp only [List.any_eq_true, bne_iff_ne, ne_eq]
      exact ⟨row, hmem, hne⟩
    unfold validateElectronShell
    rw [if_pos hc]
  · intro s hok
    unfold validateElectronShell at hok
    by_cases h1 : (s.coefficients.any fun row => row.length != s.exponents.length) = true
    · rw [if_pos h1] at hok
      exact absurd hok (by simp)
    · rw [if_neg h1] at hok
      constructor
      · intro row hrow
        by_contra hne
        apply h1
        simp only [List.any_eq_true, bne_iff_ne, ne_eq]
        exact ⟨row, hrow, hne⟩
      · intro hlen
        by_cases h2 : s.coefficients.length = s.angular_momentum.length
        · exact h2
        · rw [if_pos ⟨hlen, h2⟩] at hok
          exact absurd hok (by simp)
  · intro e h
    unfold validateECPPotential
    rw [if_pos h]
  · intro e hg h
    unfold validateECPPotential
    rw [if_neg (by simp [hg])]
    by_cases h2 : e.coefficients.length = e.angular_momentum.length
    · rw [if_neg (by simp [h2])]
      rcases h with h | h
      · exact absurd h2 h
      · have hc : (e.coefficients.any fun row => row.length != e.r_exponents.length) = true := by
          rcases h with ⟨row, hmem, hne⟩
          simp only [List.any_eq_true, bne_iff_ne, ne_eq]
          exact ⟨row, hmem, hne⟩
        rw [if_pos hc]
        exact ⟨ecpCoefficientLengthMsg, rfl, by decide⟩
    · rw [if_pos h2]
      exact ⟨ecpRowCountMsg, rfl, by decide⟩
  · intro e hok
    unfold validateECPPotential at hok
    by_cases hg : e.gaussian_exponents.length = e.r_exponents.length
    · refine ⟨hg, ?_⟩
      rw [if_neg (by simp [hg])] at hok
      by_cases h2 : e.coefficients.length = e.angular_momentum.length
      · refine ⟨h2, ?_⟩
        rw [if_neg (by simp [h2])] at hok
        intro row hrow
        by_contra hne
        have hc : (e.coefficients.any fun row => row.length != e.r_exponents.length) = true := by
          simp only [List.any_eq_true, bne_iff_ne, ne_eq]
          exact ⟨row, hrow, hne⟩
        rw [if_pos hc] at hok
        exact absurd hok (by simp)
      · rw [if_pos h2] at hok
        exact absurd hok (by simp)
    · rw [if_pos hg] at hok
      exact absurd hok (by simp)

/-- Claim C4 witness: the concrete bad inputs of the repository's tests —
a shell whose single row has two entries against three exponents, and an
ECP term whose `gaussian_exponents` has two entries against four
`r_exponents` — fail with the "does not match the" messages. -/
theorem shell_ecp_length_validation_witness :
    validateElectronShell badCoefShell = Except.error shellCoefficientLengthMsg ∧
    validateECPPotential badEcpGaussian = Except.error ecpGaussianLengthMsg ∧
    (∃ m, validateECPPotential badEcpCoef = Except.error m ∧
      strContainsSubstr m "does not match the" = true) :=
  ⟨shell_ecp_length_validation.1 badCoefShell (by decide),
    shell_ecp_length_validation.2.2.1 badEcpGaussian (by decide),
    shell_ecp_length_validation.2.2.2.1 badEcpCoef (by decide) (by decide)⟩

/-- Claim C5: a shell with several angular momenta but a single
contraction row (of the proper exponent length) is rejected as an invalid
fused shell, with a message containing "fused shell". -/
theorem fused_shell_single_row_rejected :
    ∀ s : ElectronShell, 1 < s.angular_momentum.length → s.coefficients.length = 1 →
      (∀ row ∈ s.coefficients, row.length = s.exponents.length) →
      validateElectronShell s = Except.error fusedShellMsg ∧
      strContainsSubstr fusedShellMsg "fused shell" = true := by
  intro s h1 hrows hlen
  refine ⟨?_, by decide⟩
  have hany : ¬((s.coefficients.any fun row => row.length != s.exponents.length) = true) := by
    simp only [List.any_eq_true, bne_iff_ne, ne_eq]
    rintro ⟨row, hrow, hne⟩
    exact hne (hlen row hrow)
  unfold validateElectronShell
  rw [if_neg hany, if_pos ⟨h1, by omega⟩]

/-- Claim C5 witness: the test's concrete shell — hydrogen data with
`angular_momentum = [0, 1]` and one three-entry row — is rejected as a
fused shell. -/
theorem fused_shell_single_row_rejected_witness :
    validateElectronShell badFusedShell = Except.error fusedShellMsg ∧
    strContainsSubstr fusedShellMsg "fused shell" = true :=
  fused_shell_single_row_rejected badFusedShell (by decide) (by decide) (by decide)

/-- Claim C6 counterexample: the first oxygen fixture shell has a single
coefficient row with three entries, yet `is_contracted` is `false` —
exactly as `test_basis_set_build` asserts — so "true iff some row has
more than one entry" fails on the code. -/
theorem is_contracted_claim_counterexample :
    oShell1.is_contracted = false ∧
    (oShell1.coefficients.any fun row => decide (1 < row.length)) = true ∧
    validateElectronShell oShell1 = Except.ok () :=
  ⟨rfl, rfl, rfl⟩

/-- Claim C6 (amended): for a successfully constructed shell,
`is_contracted` is true iff the row count differs from one (several
general-contraction rows) and there is exactly one angular momentum. -/
theorem is_contracted_characterization :
    ∀ s : ElectronShell, validateElectronShell s = Except.ok () →
      (s.is_contracted = true ↔
        (s.coefficients.length ≠ 1 ∧ s.angular_momentum.length = 1)) := by
  intro s _
  unfold ElectronShell.is_contracted
  simp [Bool.and_eq_true, bne_iff_ne, beq_iff_eq]

/-- Claim C6 witness: the third oxygen fixture shell (two rows, one
momentum) is contracted. -/
theorem is_contracted_characterization_witness :
    oShell3.is_contracted = true ↔
      (oShell3.coefficients.length ≠ 1 ∧ oShell3.angular_momentum.length = 1) :=
  is_contracted_characterization oShell3 rfl

theorem checkAtomMap_ok_resolves (cd : List (String × BasisCenter)) :
    ∀ am : List String, checkAtomMap cd am = Except.ok () →
      ∀ n ∈ am, (lookupCenter cd n).isSome = true
  | [], _, n, hn => absurd hn (List.not_mem_nil n)
  | a :: rest, hok, n, hn => by
    cases hlk : lookupCenter cd a with
    | none =>
      simp only [checkAtomMap, hlk] at hok
      exact absurd hok (by simp)
    | some c =>
      simp only [checkAtomMap, hlk] at hok
      rcases List.mem_cons.1 hn with h | h
      · subst h
        rw [hlk]
        rfl
      · exact checkAtomMap_ok_resolves cd rest hok n h

theorem checkAtomMap_missing_error (cd : List (String × BasisCenter)) :
    ∀ am : List String, (∃ n ∈ am, (lookupCenter cd n).isSome = false) →
      ∃ m, checkAtomMap cd am = Except.error m ∧
        strContainsSubstr m "no such center" = true
  | [], hex => absurd hex (by simp)
  | a :: rest, hex => by
    cases hlk : lookupCenter cd a with
    | none =>
      refine ⟨missingCenterMsg a, ?_, missingCenterMsg_contains a⟩
      simp only [checkAtomMap, hlk]
    | some c =>
      have hex' : ∃ n ∈ rest, (lookupCenter cd n).isSome = false := by
        rcases hex with ⟨n, hn, hfalse⟩
        rcases List.mem_cons.1 hn with h | h
        · subst h
          rw [hlk] at hfalse
          simp at hfalse
        · exact ⟨n, h, hfalse⟩
      obtain ⟨m, hm, hc⟩ := checkAtomMap_missing_error cd rest hex'
      refine ⟨m, ?_, hc⟩
      simp only [checkAtomMap, hlk]
      exact hm

/-- Claim C7: a successfully constructed basis set resolves every
atom-map entry in `center_data`, and (once the centers themselves
validate) an unresolvable atom-map entry always fails construction with a
referential "no such center" error. -/
theorem basis_atom_map_referential :
    (∀ (nm : String) (cd : List (String × BasisCenter)) (am : List String) (bs : BasisSet),
        mkBasisSet nm cd am = Except.ok bs →
        ∀ n ∈ am, (lookupCenter cd n).isSome = true) ∧
    (∀ (nm : String) (cd : List (String × BasisCenter)) (am : List String),
        validateAll (fun p => validateBasisCenter p.2) cd = Except.ok () →
        (∃ n ∈ am, (lookupCenter cd n).isSome = false) →
        ∃ m, mkBasisSet nm cd am = Except.error m ∧
          strContainsSubstr m "no such center" = true) := by
  constructor
  · intro nm cd am bs hok
    unfold mkBasisSet at hok
    cases hv : validateAll (fun p => validateBasisCenter p.2) cd with
    | error m =>
      rw [hv] at hok
      exact absurd hok (by simp)
    | ok u =>
      cases u
      rw [hv] at hok
      cases hc : checkAtomMap cd am with
      | error m =>
        rw [hc] at hok
        exact absurd hok (by simp)
      | ok u2 =>
        cases u2
        exact checkAtomMap_ok_resolves cd am hc
  · intro nm cd am hv hex
    obtain ⟨m, hm, hcont⟩ := checkAtomMap_missing_error cd am hex
    refine ⟨m, ?_, hcont⟩
    simp only [mkBasisSet, hv, hm]

/-- Claim C7 witness: the test's atom map `["something_odd"]` fails
against the fixture centers with the referential error. -/
theorem basis_atom_map_referential_witness :
    ∃ m, mkBasisSet "custom_basis" centerData ["something_odd"] = Except.error m ∧
      strContainsSubstr m "no such center" = true :=
  basis_atom_map_referential.2 "custom_basis" centerData ["something_odd"] rfl (by decide)

/-- Claim C8: with an absent protocol or protocol `none`, the constructed
result's wavefunction field is `None`, regardless of the raw wavefunction
payload supplied (including no payload at all). -/
theorem wavefunction_protocol_none_gives_none :
    ∀ payload : Option WavefunctionPayloadData,
      resultWavefunction Option.none payload = Except.ok Option.none ∧
      resultWavefunction (some WavefunctionProtocol.none) payload
        = Except.ok Option.none := by
  intro payload
  cases payload <;> exact ⟨rfl, rfl⟩

/-- Claim C2: under protocol `all` with provided named fields
`{orbitals_a, orbitals_b}`, whenever construction succeeds the trimmed
wavefunction's field set is exactly `{orbitals_a, scf_orbitals_a, basis,
restricted}` in the restricted case and `{orbitals_a, orbitals_b,
scf_orbitals_a, scf_orbitals_b, basis, restricted}` in the unrestricted
case; with the well-shaped fixture storage (`nbf = 8`) construction does
succeed with those exact field sets. -/
theorem wavefunction_all_protocol_field_set :
    (∀ (nbf : Nat) (storage : List (String × Nat)) (pointed : List String),
      ((∃ m, buildWavefunction (some WavefunctionProtocol.all) true nbf
          ["orbitals_a", "orbitals_b"] storage pointed = Except.error m) ∨
        buildWavefunction (some WavefunctionProtocol.all) true nbf
          ["orbitals_a", "orbitals_b"] storage pointed
          = Except.ok (some ["orbitals_a", "scf_orbitals_a", "basis", "restricted"])) ∧
      ((∃ m, buildWavefunction (some WavefunctionProtocol.all) false nbf
          ["orbitals_a", "orbitals_b"] storage pointed = Except.error m) ∨
        buildWavefunction (some WavefunctionProtocol.all) false nbf
          ["orbitals_a", "orbitals_b"] storage pointed
          = Except.ok (some ["orbitals_a", "orbitals_b", "scf_orbitals_a", "scf_orbitals_b",
              "basis", "restricted"]))) ∧
    buildWavefunction (some WavefunctionProtocol.all) true 8 ["orbitals_a", "orbitals_b"]
        [("scf_orbitals_a", 64), ("scf_orbitals_b", 64)] []
      = Except.ok (some ["orbitals_a", "scf_orbitals_a", "basis", "restricted"]) ∧
    buildWavefunction (some WavefunctionProtocol.all) false 8 ["orbitals_a", "orbitals_b"]
        [("scf_orbitals_a", 64), ("scf_orbitals_b", 64)] []
      = Except.ok (some ["orbitals_a", "orbitals_b", "scf_orbitals_a", "scf_orbitals_b",
          "basis", "restricted"]) := by
  refine ⟨?_, rfl, rfl⟩
  intro nbf storage pointed
  constructor
  · have hR : retainedFields (some WavefunctionProtocol.all) true
        ["orbitals_a", "orbitals_b"] pointed = ["orbitals_a"] := rfl
    cases hch : checkFields nbf storage ["orbitals_a"] with
    | error m =>
      exact Or.inl ⟨m, by simp only [buildWavefunction, hR, hch]; rfl⟩
    | ok u =>
      cases u
      exact Or.inr (by simp only [buildWavefunction, hR, hch]; rfl)
  · have hR : retainedFields (some WavefunctionProtocol.all) false
        ["orbitals_a", "orbitals_b"] pointed = ["orbitals_a", "orbitals_b"] := rfl
    cases hch : checkFields nbf storage ["orbitals_a", "orbitals_b"] with
    | error m =>
      exact Or.inl ⟨m, by simp only [buildWavefunction, hR, hch]; rfl⟩
    | ok u =>
      cases u
      exact Or.inr (by simp only [buildWavefunction, hR, hch]; rfl)

theorem checkFields_shape_error (nbf : Nat) (storage : List (String × Nat)) :
    ∀ l : List String,
      (∀ n ∈ l, (lookupSize storage (scfFieldName n)).isSome = true) →
      (∃ n ∈ l, (lookupSize storage (scfFieldName n)).getD 0 ≠ expectedSize nbf n) →
      ∃ m, checkFields nbf storage l = Except.error m ∧
        strContainsSubstr m "castable to shape" = true
  | [], _, hex => absurd hex (by simp)
  | n :: rest, hall, hex => by
    cases hlk : lookupSize storage (scfFieldName n) with
    | none =>
      have hsome := hall n (List.mem_cons_self n rest)
      rw [hlk] at hsome
      simp at hsome
    | some sz =>
      by_cases hsz : sz = expectedSize nbf n
      · have hex' : ∃ x ∈ rest,
            (lookupSize storage (scfFieldName x)).getD 0 ≠ expectedSize nbf x := by
          rcases hex with ⟨x, hx, hne⟩
          rcases List.mem_cons.1 hx with h | h
          · subst h
            rw [hlk] at hne
            simp [hsz] at hne
          · exact ⟨x, h, hne⟩
        have hall' : ∀ x ∈ rest, (lookupSize storage (scfFieldName x)).isSome = true :=
          fun x hx => hall x (List.mem_cons_of_mem n hx)
        obtain ⟨m, hm, hc⟩ := checkFields_shape_error nbf storage rest hall' hex'
        refine ⟨m, ?_, hc⟩
        simp only [checkFields, hlk]
        rw [if_pos hsz]
        exact hm
      · refine ⟨shapeCastMsg (scfFieldName n), ?_, shapeCastMsg_contains _⟩
        simp only [checkFields, hlk]
        rw [if_neg hsz]

theorem checkFields_missing_error (nbf : Nat) (storage : List (String × Nat)) :
    ∀ l : List String,
      (∀ n ∈ l, (lookupSize storage (scfFieldName n)).getD (expectedSize nbf n)
        = expectedSize nbf n) →
      (∃ n ∈ l, (lookupSize storage (scfFieldName n)).isSome = false) →
      ∃ m, checkFields nbf storage l = Except.error m ∧
        strContainsSubstr m "does not exist" = true
  | [], _, hex => absurd hex (by simp)
  | n :: rest, hall, hex => by
    cases hlk : lookupSize storage (scfFieldName n) with
    | none =>
      refine ⟨missingFieldMsg (scfFieldName n), ?_, missingFieldMsg_contains _⟩
      simp only [checkFields, hlk]
    | some sz =>
      have hsz : sz = expectedSize nbf n := by
        have hgd := hall n (List.mem_cons_self n rest)
        rw [hlk] at hgd
        simpa using hgd
      have hex' : ∃ x ∈ rest, (lookupSize storage (scfFieldName x)).isSome = false := by
        rcases hex with ⟨x, hx, hf⟩
        rcases List.mem_cons.1 hx with h | h
        · subst h
          rw [hlk] at hf
          simp at hf
        · exact ⟨x, h, hf⟩
      have hall' : ∀ x ∈ rest, (lookupSize storage (scfFieldName x)).getD
          (expectedSize nbf x) = expectedSize nbf x :=
        fun x hx => hall x (List.mem_cons_of_mem n hx)
      obtain ⟨m, hm, hc⟩ := checkFields_missing_error nbf storage rest hall' hex'
      refine ⟨m, ?_, hc⟩
      simp only [checkFields, hlk]
      rw [if_pos hsz]
      exact hm

/-- Claim C9: every retained wavefunction field is checked against its
storage: when all storage counterparts are present but some array's
flattened element count cannot be cast to the expected shape (`nbf` for
eigenvalue vectors, `nbf * nbf` for matrices), construction fails with a
"castable to shape" error; and when (the present arrays being
well-shaped) some retained field's `scf_`-prefixed counterpart is absent,
construction fails with a "does not exist" error. -/
theorem wavefunction_storage_checks :
    (∀ (p : Option WavefunctionProtocol) (r : Bool) (nbf : Nat)
        (provided pointed : List String) (storage : List (String × Nat)),
      (∀ n ∈ retainedFields p r provided pointed,
          (lookupSize storage (scfFieldName n)).isSome = true) →
      (∃ n ∈ retainedFields p r provided pointed,
          (lookupSize storage (scfFieldName n)).getD 0 ≠ expectedSize nbf n) →
      ∃ m, buildWavefunction p r nbf provided storage pointed = Except.error m ∧
        strContainsSubstr m "castable to shape" = true) ∧
    (∀ (p : Option WavefunctionProtocol) (r : Bool) (nbf : Nat)
        (provided pointed : List String) (storage : List (String × Nat)),
      (∀ n ∈ retainedFields p r provided pointed,
          (lookupSize storage (scfFieldName n)).getD (expectedSize nbf n)
            = expectedSize nbf n) →
      (∃ n ∈ retainedFields p r provided pointed,
          (lookupSize storage (scfFieldName n)).isSome = false) →
      ∃ m, buildWavefunction p r nbf provided storage pointed = Except.error m ∧
        strContainsSubstr m "does not exist" = true) := by
  constructor
  · intro p r nbf provided pointed storage hall hex
    obtain ⟨m, hm, hc⟩ := checkFields_shape_error nbf storage _ hall hex
    refine ⟨m, ?_, hc⟩
    cases hR : retainedFields p r provided pointed with
    | nil =>
      rw [hR] at hex
      simp at hex
    | cons a l =>
      rw [hR] at hm
      simp only [buildWavefunction, hR, hm, List.isEmpty_cons]
      rfl
  · intro p r nbf provided pointed storage hall hex
    obtain ⟨m, hm, hc⟩ := checkFields_missing_error nbf storage _ hall hex
    refine ⟨m, ?_, hc⟩
    cases hR : retainedFields p r provided pointed with
    | nil =>
      rw [hR] at hex
      simp at hex
    | cons a l =>
      rw [hR] at hm
      simp only [buildWavefunction, hR, hm, List.isEmpty_cons]
      rfl

/-- Claim C9 witness: the two concrete failures of the tests — a 2×2
array where an 8×8 one is expected, and a deleted `scf_orbitals_a`
storage field — both abort construction with the claimed messages. -/
theorem wavefunction_storage_checks_witness :
    (∃ m, buildWavefunction (some WavefunctionProtocol.all) true 8 ["orbitals_a"]
        [("scf_orbitals_a", 4)] [] = Except.error m ∧
      strContainsSubstr m "castable to shape" = true) ∧
    (∃ m, buildWavefunction (some WavefunctionProtocol.all) true 8 ["orbitals_a"]
        [] [] = Except.error m ∧
      strContainsSubstr m "does not exist" = true) :=
  ⟨wavefunction_storage_checks.1 (some WavefunctionProtocol.all) true 8 ["orbitals_a"] []
      [("scf_orbitals_a", 4)] (by decide) (by decide),
    wavefunction_storage_checks.2 (some WavefunctionProtocol.all) true 8 ["orbitals_a"] []
      [] (by decide) (by decide)⟩

theorem drop_length_pred {α : Type} :
    ∀ (l : List α) (h : l ≠ []), l.drop (l.length - 1) = [l.getLast h]
  | [], h => absurd rfl h
  | [x], _ => rfl
  | x :: y :: t, _ => by
    have ih := drop_length_pred (y :: t) (List.cons_ne_nil y t)
    have h1 : (x :: y :: t).length - 1 = (y :: t).length - 1 + 1 := by
      simp [List.length]
    rw [h1]
    show (y :: t).drop ((y :: t).length - 1) = _
    rw [ih]
    congr 1

/-- Claim C3: constructing an optimization selects exactly the
subsequence of the raw trajectory demanded by the protocol, preserving
order and leaving the surviving per-step results untouched: absent or
`all` keeps everything, `none` keeps nothing, `final` keeps the last
step, `initial_and_final` keeps the first and last steps, and for a
one-step trajectory `initial_and_final` and `final` both keep step 0. -/
theorem optimization_trajectory_selection {α : Type} (traj : List α) (h : traj ≠ []) :
    (mkOptimization Option.none traj).trajectory = traj ∧
    (mkOptimization (some TrajectoryProtocol.all) traj).trajectory = traj ∧
    (mkOptimization (some TrajectoryProtocol.none) traj).trajectory = [] ∧
    (mkOptimization (some TrajectoryProtocol.final) traj).trajectory = [traj.getLast h] ∧
    (2 ≤ traj.length →
      (mkOptimization (some TrajectoryProtocol.initial_and_final) traj).trajectory
        = [traj.head h, traj.getLast h]) ∧
    (traj.length = 1 →
      (mkOptimization (some TrajectoryProtocol.initial_and_final) traj).trajectory = traj ∧
      (mkOptimization (some TrajectoryProtocol.final) traj).trajectory = traj) := by
  refine ⟨rfl, rfl, rfl, ?_, ?_, ?_⟩
  · exact drop_length_pred traj h
  · intro h2
    obtain ⟨x, xs, rfl⟩ := List.exists_cons_of_ne_nil h
    show (if (x :: xs).length ≤ 1 then x :: xs
        else (x :: xs).take 1 ++ (x :: xs).drop ((x :: xs).length - 1)) = _
    rw [if_neg (by omega)]
    rw [show (x :: xs).take 1 = [x] from rfl,
      drop_length_pred (x :: xs) (List.cons_ne_nil x xs)]
    rfl
  · intro h1
    obtain ⟨x, xs, rfl⟩ := List.exists_cons_of_ne_nil h
    have hxs : xs = [] := by simpa using h1
    subst hxs
    exact ⟨rfl, rfl⟩

/-- Claim C3 witness: over the five-step fixture trajectory the
protocols select `[0,1,2,3,4]`, `[0,4]`, `[4]` and `[]`. -/
theorem optimization_trajectory_selection_witness :
    (mkOptimization Option.none ([0, 1, 2, 3, 4] : List Nat)).trajectory = [0, 1, 2, 3, 4] ∧
    (mkOptimization (some TrajectoryProtocol.initial_and_final)
      ([0, 1, 2, 3, 4] : List Nat)).trajectory = [0, 4] ∧
    (mkOptimization (some TrajectoryProtocol.final)
      ([0, 1, 2, 3, 4] : List Nat)).trajectory = [4] ∧
    (mkOptimization (some TrajectoryProtocol.none)
      ([0, 1, 2, 3, 4] : List Nat)).trajectory = [] := by
  have h := optimization_trajectory_selection ([0, 1, 2, 3, 4] : List Nat)
    (by decide)
  refine ⟨h.1, ?_, ?_, h.2.2.1⟩
  · rw [h.2.2.2.2.1 (by decide)]
    rfl
  · rw [h.2.2.2.1]
    rfl

/-- The raw `FailedOperation` input of the counterexample: a caller
explicitly passing `success=True` alongside a populated error. -/
def failedOpSuccessTrueInput : FailedOperationInput :=
  ⟨Option.none, Option.none, some true,
    some ⟨some "input_error", some "boom", Option.none⟩, Option.none⟩

/-- An empty raw `FailedOperation` input: no error payload supplied. -/
def emptyFailedOperationInput : FailedOperationInput :=
  ⟨Option.none, Option.none, Option.none, Option.none, Option.none⟩

/-- Claim C10 counterexample: `success` carries only a default of
`False` and no validator, so a caller-supplied `success=True` constructs
successfully — the constructed record has `success = true` while still
carrying an error, refuting "error is present iff success is false". -/
theorem failed_operation_success_unenforced :
    (mkFailedOperation failedOpSuccessTrueInput).map FailedOperation.success
      = Except.ok true :=
  rfl

/-- Claim C10 (amended): every successfully constructed `FailedOperation`
carries a populated `ComputeError` built from the supplied payload, and
construction without an error payload always fails; `success` merely
defaults to `False` when omitted and is not validated, so it cannot be
used to infer the presence of `error`. -/
theorem failed_operation_error_required :
    (∀ i : FailedOperationInput, i.error = Option.none →
      mkFailedOperation i = Except.error "error: field required") ∧
    (∀ (i : FailedOperationInput) (r : FailedOperation),
      mkFailedOperation i = Except.ok r →
      ∃ e, i.error = some e ∧ mkComputeError e = Except.ok r.error) ∧
    (∀ (i : FailedOperationInput) (r : FailedOperation),
      mkFailedOperation i = Except.ok r → r.success = i.success.getD false) := by
  refine ⟨?_, ?_, ?_⟩
  · intro i h
    simp only [mkFailedOperation, h]
  · intro i r hok
    cases he : i.error with
    | none =>
      simp only [mkFailedOperation, he] at hok
      exact absurd hok (by simp)
    | some e =>
      simp only [mkFailedOperation, he] at hok
      cases hce : mkComputeError e with
      | error m =>
        rw [hce] at hok
        exact absurd hok (by simp)
      | ok ce =>
        rw [hce] at hok
        refine ⟨e, rfl, ?_⟩
        rw [hce]
        cases hok
        rfl
  · intro i r hok
    cases he : i.error with
    | none =>
      simp only [mkFailedOperation, he] at hok
      exact absurd hok (by simp)
    | some e =>
      simp only [mkFailedOperation, he] at hok
      cases hce : mkComputeError e with
      | error m =>
        rw [hce] at hok
        exact absurd hok (by simp)
      | ok ce =>
        rw [hce] at hok
        cases hok
        rfl

/-- Claim C10 witness: an input with no error payload is rejected. -/
theorem failed_operation_error_required_witness :
    mkFailedOperation emptyFailedOperationInput = Except.error "error: field required" :=
  failed_operation_error_required.1 emptyFailedOperationInput rfl

end QCElemental
